import Mathlib

set_option autoImplicit false

namespace Pkger

/-!
Shallow embedding of the build-orchestration core of `pkger`
(crates `pkger-core` and `pkger-cli`, plus the legacy `src/` tree).
Engine and filesystem interactions are modelled by explicit environment
values (the outcome each call would produce), and the functions under
verification are translated from the Rust sources function by function.
The file is organized as definitions first, theorems second.
-/

/-! # Definitions -/

deriving instance DecidableEq for Except

/-! ## Data model -/

/-- Build targets, `BuildTarget` in `pkger-core/src/recipe`. -/
inductive BuildTarget where
  | deb
  | rpm
  | pkg
  | gzip
deriving DecidableEq, Repr

/-- Cache key `RecipeTarget`: recipe name plus image target. -/
structure RecipeTarget where
  recipe : String
  image : String
  target : BuildTarget
deriving DecidableEq, Repr

/-- Modelled from the spec: `ImageState` (the struct lives in
`pkger-core/src/image.rs`, which is not among the provided sources; the
fields are those given in the spec data model and consumed by
`build/image.rs` and `build/mod.rs`).  Timestamps are modelled as `Nat`
(seconds), dependency sets as `Finset String`. -/
structure ImageState where
  id : String
  image : String
  tag : String
  os : String
  timestamp : Nat
  deps : Finset String
  simple : Bool
deriving DecidableEq

/-- Map lookup for the shared `ImagesState.images` mapping
(`RecipeTarget → ImageState`), modelled as an association list. -/
def getState : List (RecipeTarget × ImageState) → RecipeTarget → Option ImageState
  | [], _ => none
  | (k, v) :: rest, t => if k = t then some v else getState rest t

/-! ## 4.D freshness rule: `find_cached_state` (`pkger-core/src/build/image.rs`)

A directory entry is modelled as `Option Nat`: `none` when the entry, its
metadata or its modification time cannot be read (the three `continue`
branches of the scan loop), `some t` when the modification time `t` is
readable.  The whole directory listing is `Option (List (Option Nat))`:
`none` when `fs::read_dir` itself fails (in which case the loop body is
skipped entirely). -/

/-- The scan loop of `find_cached_state`: returns `false` as soon as a
readable modification time exceeds the cached timestamp, skipping
unreadable entries. -/
def check_entries (ts : Nat) : List (Option Nat) → Bool
  | [] => true
  | none :: rest => check_entries ts rest
  | some m :: rest => if ts < m then false else check_entries ts rest

/-- Translation of `find_cached_state`. -/
def find_cached_state (entries : Option (List (Option Nat))) (target : RecipeTarget)
    (images : List (RecipeTarget × ImageState)) (simple : Bool) : Option ImageState :=
  match getState images target with
  | none => none
  | some s =>
    if simple then some s
    else
      match entries with
      | none => some s
      | some es => if check_entries s.timestamp es then some s else none

/-- The modification times the scan can actually read. -/
def readable_list : List (Option Nat) → List Nat
  | [] => []
  | none :: rest => readable_list rest
  | some m :: rest => m :: readable_list rest

/-- Readable modification times of the whole (possibly unreadable) listing. -/
def readable_mtimes : Option (List (Option Nat)) → List Nat
  | none => []
  | some es => readable_list es

/-! ## 4.A container handle (`pkger-core/src/container.rs`) -/

/-- Translation of `fix_name`: keeps a character iff it is alphanumeric,
`'-'`, `'.'` or — by the duplicated literal in the source — `'-'` again.
Rust's Unicode `char::is_alphanumeric` is passed in as a parameter. -/
def fix_name (isAlphanumeric : Char → Bool) (name : List Char) : List Char :=
  name.filter (fun c => isAlphanumeric c || c == '-' || c == '.' || c == '-')

/-- Shorthand: does an engine/filesystem call result denote success? -/
def okB {ε α : Type} : Except ε α → Bool
  | .ok _ => true
  | .error _ => false

namespace DockerContainer

/-- Translation of `DockerContainer::remove`: `kill(None)` followed by a
forced remove, each call's engine outcome taken as an input; every engine
error is propagated with added context. -/
def remove (killRes : Except String Unit) (rmRes : Except String Unit) :
    Except String Unit :=
  match killRes with
  | .error e => .error ("failed to stop container: " ++ e)
  | .ok _ =>
    match rmRes with
    | .error e => .error ("failed to delete container: " ++ e)
    | .ok _ => .ok ()

end DockerContainer

/-! ## 4.F patch application (`pkger-core/src/build/patches.rs`) -/

/-- One resolved patch entry; only the strip level is consumed by `apply`. -/
structure Patch where
  stripLevel : Nat
deriving DecidableEq, Repr

/-- One exec invocation inside the container. -/
structure ExecCmd where
  cmd : String
  workingDir : String
deriving DecidableEq, Repr

namespace Patches

/-- The command `apply` runs for one patch. -/
def patchCmd (bldDir : String) (p : Patch) (location : String) : ExecCmd :=
  { cmd := "patch -p" ++ toString p.stripLevel ++ " < " ++ location
    workingDir := bldDir }

/-- Translation of `patches::apply`: run the patch command for every collected
patch in order; a failing `checked_exec` is recorded as a warning and the loop
continues.  Returns the overall result, the commands run and the warnings. -/
def apply (bldDir : String) (execResult : ExecCmd → Except String Unit) :
    List (Patch × String) → Except String Unit × List ExecCmd × List String
  | [] => (.ok (), [], [])
  | (p, loc) :: rest =>
    let c := patchCmd bldDir p loc
    let out := apply bldDir execResult rest
    match execResult c with
    | .ok _ => (out.1, c :: out.2.1, out.2.2)
    | .error e => (out.1, c :: out.2.1, ("applying patch failed: " ++ e) :: out.2.2)

end Patches

/-! ## 4.J scheduler result (`pkger-cli/src/app/build.rs`, `process_tasks`) -/

/-- Result of one settled build job. -/
inductive JobResult where
  | success (id : String) (duration : Nat) (output : String)
  | failure (id : String) (duration : Nat) (reason : String)
deriving DecidableEq, Repr

/-- Is a result a `JobResult::Failure`? -/
def isFailure : JobResult → Bool
  | .failure .. => true
  | .success .. => false

/-- The `task_failed` accumulation loop of `process_tasks`. -/
def task_failed (results : List JobResult) : Bool :=
  results.foldl
    (fun acc r =>
      match r with
      | .failure .. => true
      | .success .. => acc)
    false

/-- Translation of the settling logic of `process_tasks`: after all job
results are collected, the images-state save (attempted only when the state
has changed) and the session cleanup have their errors logged but do not
influence the returned value; the function errs iff `task_failed` was set. -/
def process_tasks (results : List JobResult) (stateChanged : Bool)
    (saveRes : Except String Unit) (cleanupRes : Except String Nat) :
    Except String Unit :=
  let failed := task_failed results
  -- `saveRes` (when `stateChanged`) and `cleanupRes` are only logged
  if failed then .error "at least one of the tasks failed" else .ok ()

/-! ## 4.H gzip assembly (`pkger-core/src/build/package/gzip.rs`) -/

namespace Gzip

/-- Translation of `gzip::package_name`: the Rust source formats
`"{}-{}.{}"` with the recipe name, the version, and — when `extension` is
set — the literal `".tar.gz"` (which itself starts with a dot). -/
def package_name (name version : String) (extension : Bool) : String :=
  name ++ "-" ++ version ++ "." ++ (if extension then ".tar.gz" else "")

/-- Translation of `gzip::build`: `copy_from` the container output directory,
wrap it as a gzipped tar under the package name inside the host output
directory.  There is no metadata file and no signing step in this function;
the two fallible operations are the container copy and the archive write. -/
def build (name version : String) (outputDir : String)
    (copyRes saveRes : Except String Unit) : Except String String :=
  match copyRes with
  | .error e => .error e
  | .ok _ =>
    match saveRes with
    | .error e => .error ("saving package as tar.gz: " ++ e)
    | .ok _ => .ok (outputDir ++ "/" ++ package_name name version true)

end Gzip

/-! ## 4.E source fetching (`pkger-core/src/build/remote.rs`) -/

/-- Git source of a recipe. -/
structure GitSource where
  url : String
  branch : String
deriving DecidableEq, Repr

/-- A source-acquisition action performed inside `fetch_source`. -/
inductive FetchAction where
  | git (url branch dest : String)
  | http (source dest : String)
  | fs (path dest : String)
  | extract (dest : String)
deriving DecidableEq, Repr

/-- Rust's `str::starts_with`, modelled on the character lists (the built-in
`String.startsWith` is not kernel-reducible). -/
def starts_with (s pre : String) : Bool :=
  pre.data.isPrefixOf s.data

namespace Remote

/-- Translation of `fetch_source`: prefer `recipe.git`; otherwise render
`recipe.source` through the template renderer and dispatch on the rendered
string: a string starting with `"http"` goes to `fetch_http_source` (cwd =
`tmp-dir`), anything else to `fetch_fs_source` (into `tmp-dir`); afterwards
the archive-expansion shell loop runs into `bld-dir`.  With neither field
set nothing happens.  Engine outcomes of the four fallible steps are inputs;
the returned list records the actions attempted, in order. -/
def fetch_source (git : Option GitSource) (source : Option String)
    (render : String → String) (tmpDir bldDir : String)
    (gitRes httpRes fsRes extractRes : Except String Unit) :
    Except String Unit × List FetchAction :=
  match git with
  | some repo =>
    (match gitRes with
      | .error e => .error e
      | .ok _ => .ok (), [.git repo.url repo.branch bldDir])
  | none =>
    match source with
    | none => (.ok (), [])
    | some src =>
      let rendered := render src
      let fetched :
          Except String Unit × List FetchAction :=
        if starts_with rendered "http" then
          (httpRes, [.http rendered tmpDir])
        else
          (fsRes, [.fs rendered tmpDir])
      match fetched.1 with
      | .error e => (.error e, fetched.2)
      | .ok _ =>
        match extractRes with
        | .error e => (.error e, fetched.2 ++ [.extract bldDir])
        | .ok _ => (.ok (), fetched.2 ++ [.extract bldDir])

end Remote

/-- Claimed URL test, following the spec words: an `http(s)://` URL. -/
def claimed_http_url (s : String) : Bool :=
  starts_with s "http://" || starts_with s "https://"

/-! ## 4.I the job run (`pkger-core/src/build/mod.rs`, `run`) and the
image-build decision (`pkger-core/src/build/image.rs`, `build`) -/

/-- Result of `image::build`: either an existing cached state is reused, or
a state freshly built from scratch is returned. -/
inductive BuildOutcome where
  | reused (s : ImageState)
  | fresh (s : ImageState)
deriving DecidableEq

/-- The state the job proceeds with. -/
def BuildOutcome.state : BuildOutcome → ImageState
  | .reused s => s
  | .fresh s => s

/-- Data of the from-scratch image build: `ImageState::new` is called with
tag `"latest"` and `Default::default()` (empty) deps. -/
structure FreshBuild where
  id : String
  os : String
  timestamp : Nat
deriving DecidableEq, Repr

namespace Build

/-- The `ImageState` produced by a successful from-scratch build in
`image::build` (tag `LATEST`, empty deps). -/
def fresh_state (target : RecipeTarget) (fb : FreshBuild) (simple : Bool) :
    ImageState :=
  { id := fb.id
    image := target.image
    tag := "latest"
    os := fb.os
    timestamp := fb.timestamp
    deps := ∅
    simple := simple }

/-- Translation of the decision logic of `image::build` after
`find_cached_state` returned `cached`: reuse the cached state iff the
resolved deps equal its deps and its image id still exists in the engine;
otherwise build from scratch. -/
def image_build (resolvedDeps : Finset String) (cached : Option ImageState)
    (existsInDocker : Bool) (target : RecipeTarget) (fb : FreshBuild)
    (simple : Bool) : BuildOutcome :=
  match cached with
  | some s =>
    if resolvedDeps ≠ s.deps then .fresh (fresh_state target fb simple)
    else if existsInDocker then .reused s
    else .fresh (fresh_state target fb simple)
  | none => .fresh (fresh_state target fb simple)

/-- Observable actions of one job run. -/
inductive Action where
  | spawnContainer (generation : Nat)
  | createCache
  | removeContainer (generation : Nat)
  | package
deriving DecidableEq, Repr

/-- Environment of one job run: the outcome each engine or filesystem
interaction of `run` would produce, in program order. -/
structure RunEnv where
  buildRes : Except String BuildOutcome
  outDirRes : Except String Unit
  spawnRes : Except String Unit
  cacheRes : Except String ImageState
  removeCacheRes : Except String Unit
  respawnRes : Except String Unit
  dirsRes : Except String Unit
  fetchRes : Except String Unit
  hasPatches : Bool
  collectRes : Except String Unit
  scriptsRes : Except String Unit
  excludeRes : Except String Unit
  packageRes : Except String String
  removeRes : Except String Unit

/-- The `?` operator: an error settles the run with the trace so far. -/
def step {α : Type} (r : Except String α)
    (k : α → Except String String × List Action) (tr : List Action) :
    Except String String × List Action :=
  match r with
  | .error e => (.error e, tr)
  | .ok a => k a

/-- The steps of `run` after the container (generation `g`) is up and the
dep-cache stage is settled: create dirs, fetch sources, collect and apply
patches (`apply` itself never fails), run scripts, enforce excludes, build
the package, remove the container. -/
def run_tail (env : RunEnv) (tr : List Action) (g : Nat) :
    Except String String × List Action :=
  step env.dirsRes
    (fun _ =>
      step env.fetchRes
        (fun _ =>
          let after_patches :=
            step env.scriptsRes
              (fun _ =>
                step env.excludeRes
                  (fun _ =>
                    step env.packageRes
                      (fun p =>
                        step env.removeRes
                          (fun _ =>
                            (.ok p, tr ++ [.package, .removeContainer g]))
                          (tr ++ [.package, .removeContainer g]))
                      (tr ++ [.package]))
                  tr)
              tr
          if env.hasPatches then
            step env.collectRes (fun _ => after_patches) tr
          else after_patches)
        tr)
    tr

/-- Translation of `build::run`: build the image, create the host output
directory, spawn the container (generation 0); when the obtained state's tag
is not `"cached"`, run `create_cache`, remove the container and respawn from
the cached image (generation 1); then the tail steps. -/
def run (env : RunEnv) : Except String String × List Action :=
  step env.buildRes
    (fun bo =>
      step env.outDirRes
        (fun _ =>
          step env.spawnRes
            (fun _ =>
              if bo.state.tag ≠ "cached" then
                step env.cacheRes
                  (fun _ =>
                    step env.removeCacheRes
                      (fun _ =>
                        step env.respawnRes
                          (fun _ =>
                            run_tail env
                              [.spawnContainer 0, .createCache,
                                .removeContainer 0, .spawnContainer 1]
                              1)
                          [.spawnContainer 0, .createCache, .removeContainer 0,
                            .spawnContainer 1])
                      [.spawnContainer 0, .createCache, .removeContainer 0])
                  [.spawnContainer 0, .createCache]
              else run_tail env [.spawnContainer 0] 0)
            [.spawnContainer 0])
        [])
    []

end Build

/-- A cached-tag image state reused by the runs below. -/
def cachedState : ImageState :=
  { id := "sha256:0a1b2c3d4e5f"
    image := "debian"
    tag := "cached"
    os := "debian"
    timestamp := 17
    deps := {"gzip"}
    simple := false }

/-- Environment of a run whose source fetch fails after the container came
up (everything before the fetch succeeds, the image was reused as cached so
no dep-cache stage runs). -/
def leakEnv : Build.RunEnv :=
  { buildRes := .ok (.reused cachedState)
    outDirRes := .ok ()
    spawnRes := .ok ()
    cacheRes := .error "unreached"
    removeCacheRes := .ok ()
    respawnRes := .ok ()
    dirsRes := .ok ()
    fetchRes := .error "curl: (6) could not resolve host"
    hasPatches := false
    collectRes := .ok ()
    scriptsRes := .ok ()
    excludeRes := .ok ()
    packageRes := .ok "unreached"
    removeRes := .ok () }

/-- Environment of a fully successful run reusing a cached-tag image. -/
def okEnv : Build.RunEnv :=
  { buildRes := .ok (.reused cachedState)
    outDirRes := .ok ()
    spawnRes := .ok ()
    cacheRes := .error "unreached"
    removeCacheRes := .ok ()
    respawnRes := .ok ()
    dirsRes := .ok ()
    fetchRes := .ok ()
    hasPatches := true
    collectRes := .ok ()
    scriptsRes := .ok ()
    excludeRes := .ok ()
    packageRes := .ok "/output/debian/hello-0.1.0..tar.gz"
    removeRes := .ok () }

/-- Recipe target of the concrete dep-cache scenario. -/
def c3Target : RecipeTarget :=
  { recipe := "hello", image := "debian", target := .gzip }

/-- From-scratch build data of the concrete dep-cache scenario. -/
def c3Fresh : FreshBuild :=
  { id := "sha256:ffff", os := "debian", timestamp := 23 }

/-- Environment of a successful run whose image was built from scratch
(no cache entry for the target), so the dep-cache stage must run. -/
def c3Env : Build.RunEnv :=
  { buildRes := .ok (Build.image_build {"gcc"} none true c3Target c3Fresh false)
    outDirRes := .ok ()
    spawnRes := .ok ()
    cacheRes := .ok cachedState
    removeCacheRes := .ok ()
    respawnRes := .ok ()
    dirsRes := .ok ()
    fetchRes := .ok ()
    hasPatches := false
    collectRes := .ok ()
    scriptsRes := .ok ()
    excludeRes := .ok ()
    packageRes := .ok "/output/debian/hello-0.1.0..tar.gz"
    removeRes := .ok () }

/-! ## 4.C legacy state persistence (`src/src/image.rs`) -/

namespace Legacy

/-- The legacy `ImageState` (`src/src/image.rs`), keyed by image name. -/
structure ImageStateL where
  id : String
  image : String
  tag : String
  os : String
  timestamp : Nat
deriving DecidableEq, Repr

/-- The legacy `ImagesState`: image-name map plus the state-file path. -/
structure ImagesStateL where
  images : List (String × ImageStateL)
  state_file : String
deriving DecidableEq, Repr

/-- Contents of a state file: `File::create` leaves it empty; a successful
`save` stores one serialized snapshot.  Serialization (serde_cbor of the
whole struct) is abstracted into the constructor `data`; the empty file
fails to deserialize exactly as an empty byte slice does. -/
inductive FileContent where
  | empty
  | data (s : ImagesStateL)
deriving DecidableEq, Repr

/-- Host filesystem fragment: path ↦ newest content. -/
def fsRead : List (String × FileContent) → String → Option FileContent
  | [], _ => none
  | (p, c) :: rest, q => if p = q then some c else fsRead rest q

/-- Writing a file: the newest entry shadows the older ones. -/
def fsWrite (fs : List (String × FileContent)) (p : String) (c : FileContent) :
    List (String × FileContent) :=
  (p, c) :: fs

/-- Translation of `ImagesState::try_from_path`: a missing file is created
(empty) and an empty state returned; an existing file is read and
deserialized, the empty file failing deserialization. -/
def try_from_path (fs : List (String × FileContent)) (path : String) :
    List (String × FileContent) × Except String ImagesStateL :=
  match fsRead fs path with
  | none => (fsWrite fs path .empty, .ok { images := [], state_file := path })
  | some .empty => (fs, .error "failed to deserialize image state")
  | some (.data s) => (fs, .ok s)

/-- Translation of `ImagesState::save`: when the state file does not exist it
is merely created empty (nothing is written); when it exists, the serialized
snapshot of the whole value is written. -/
def save (s : ImagesStateL) (fs : List (String × FileContent)) :
    List (String × FileContent) :=
  match fsRead fs s.state_file with
  | none => fsWrite fs s.state_file .empty
  | some _ => fsWrite fs s.state_file (.data s)

/-- The caller-side gate (`process_tasks`, `pkger-cli/src/app/build.rs`):
save is attempted only when `has_changed()` reports a dirty state. -/
def save_if_changed (hasChanged : Bool) (s : ImagesStateL)
    (fs : List (String × FileContent)) : List (String × FileContent) :=
  if hasChanged then save s fs else fs

end Legacy

/-- A concrete legacy state value over an absent state file. -/
def legacyFreshS : Legacy.ImagesStateL :=
  { images := [], state_file := "pkger.state" }

/-- A concrete legacy state value with one entry. -/
def legacyS : Legacy.ImagesStateL :=
  { images :=
      [("debian",
        { id := "sha256:77", image := "debian", tag := "latest", os := "debian",
          timestamp := 41 })]
    state_file := "pkger.state" }

/-! # Theorems -/

/-! ## Helper lemmas -/

theorem check_entries_eq_true_iff (ts : Nat) (es : List (Option Nat)) :
    check_entries ts es = true ↔ ∀ t ∈ readable_list es, t ≤ ts := by
  induction es with
  | nil => simp [check_entries, readable_list]
  | cons e rest ih =>
    cases e with
    | none => simpa [check_entries, readable_list] using ih
    | some m =>
      by_cases hm : ts < m
      · simp only [check_entries, if_pos hm, Bool.false_eq_true, false_iff]
        intro h
        exact absurd (h m (by simp [readable_list])) (by omega)
      · simp only [check_entries, if_neg hm, ih, readable_list, List.mem_cons]
        constructor
        · intro h t ht
          rcases ht with rfl | ht
          · omega
          · exact h t ht
        · intro h t ht
          exact h t (Or.inr ht)

theorem task_failed_loop (results : List JobResult) (acc : Bool) :
    results.foldl
        (fun acc r =>
          match r with
          | .failure .. => true
          | .success .. => acc)
        acc =
      (acc || results.any isFailure) := by
  induction results generalizing acc with
  | nil => simp
  | cons r rest ih => cases r <;> simp [List.foldl_cons, ih, isFailure]

theorem run_tail_remove_mem (env : Build.RunEnv) (tr : List Build.Action) (g : Nat)
    (hg : Build.Action.removeContainer g ∉ tr) :
    (Build.Action.removeContainer g ∈ (Build.run_tail env tr g).2 ↔
      okB env.dirsRes = true ∧ okB env.fetchRes = true ∧
        (env.hasPatches = true → okB env.collectRes = true) ∧
        okB env.scriptsRes = true ∧ okB env.excludeRes = true ∧
        okB env.packageRes = true) := by
  cases hd : env.dirsRes <;> cases hf : env.fetchRes <;>
    cases hp : env.hasPatches <;> cases hc : env.collectRes <;>
    cases hs : env.scriptsRes <;> cases he : env.excludeRes <;>
    cases hpk : env.packageRes <;> cases hr : env.removeRes <;>
    simp [Build.run_tail, Build.step, okB, hd, hf, hp, hc, hs, he, hpk, hr, hg]

theorem run_tail_createCache_mem (env : Build.RunEnv) (tr : List Build.Action)
    (g : Nat) :
    (Build.Action.createCache ∈ (Build.run_tail env tr g).2 ↔
      Build.Action.createCache ∈ tr) := by
  cases hd : env.dirsRes <;> cases hf : env.fetchRes <;>
    cases hp : env.hasPatches <;> cases hc : env.collectRes <;>
    cases hs : env.scriptsRes <;> cases he : env.excludeRes <;>
    cases hpk : env.packageRes <;> cases hr : env.removeRes <;>
    simp [Build.run_tail, Build.step, hd, hf, hp, hc, hs, he, hpk, hr]

theorem run_createCache_iff (env : Build.RunEnv) (bo : BuildOutcome)
    (hb : env.buildRes = .ok bo) (ho : okB env.outDirRes = true)
    (hs : okB env.spawnRes = true) :
    (Build.Action.createCache ∈ (Build.run env).2 ↔ bo.state.tag ≠ "cached") := by
  cases hou : env.outDirRes with
  | error e => rw [hou] at ho; exact absurd ho (by simp [okB])
  | ok u =>
    cases hsp : env.spawnRes with
    | error e => rw [hsp] at hs; exact absurd hs (by simp [okB])
    | ok v =>
      by_cases htag : bo.state.tag = "cached"
      · have hmem :=
          run_tail_createCache_mem env [Build.Action.spawnContainer 0] 0
        simp [Build.run, Build.step, hb, hou, hsp, htag, hmem]
      · cases hca : env.cacheRes with
        | error e => simp [Build.run, Build.step, hb, hou, hsp, htag, hca]
        | ok w =>
          cases hrc : env.removeCacheRes with
          | error e => simp [Build.run, Build.step, hb, hou, hsp, htag, hca, hrc]
          | ok _ =>
            cases hrs : env.respawnRes with
            | error e =>
              simp [Build.run, Build.step, hb, hou, hsp, htag, hca, hrc, hrs]
            | ok _ =>
              have hmem :=
                run_tail_createCache_mem env
                  [Build.Action.spawnContainer 0, Build.Action.createCache,
                    Build.Action.removeContainer 0, Build.Action.spawnContainer 1]
                  1
              simp [Build.run, Build.step, hb, hou, hsp, htag, hca, hrc, hrs, hmem]

theorem legacy_fsRead_fsWrite (fs : List (String × Legacy.FileContent))
    (p : String) (c : Legacy.FileContent) :
    Legacy.fsRead (Legacy.fsWrite fs p c) p = some c := by
  simp [Legacy.fsRead, Legacy.fsWrite]

/-! ## Claim C1 -/

/-- Claim C1: `find_cached_state` returns `some s` iff the state map has the
entry `s` for the target and either `simple` is set or every entry of the
image directory whose metadata and modification time can be read has
modification time at most `s.timestamp`; unreadable entries never
invalidate the cache. -/
theorem find_cached_state_some_iff (entries : Option (List (Option Nat)))
    (target : RecipeTarget) (images : List (RecipeTarget × ImageState))
    (simple : Bool) (s : ImageState) :
    find_cached_state entries target images simple = some s ↔
      getState images target = some s ∧
        (simple = true ∨ ∀ t ∈ readable_mtimes entries, t ≤ s.timestamp) := by
  cases hg : getState images target with
  | none => simp [find_cached_state, hg]
  | some s₀ =>
    cases simple with
    | true => simp [find_cached_state, hg, eq_comm]
    | false =>
      cases entries with
      | none =>
        simp [find_cached_state, hg, readable_mtimes, eq_comm]
      | some es =>
        by_cases hc : check_entries s₀.timestamp es = true
        · simp only [find_cached_state, hg, Bool.false_eq_true, if_false, if_pos hc,
            Option.some_inj, readable_mtimes, false_or]
          constructor
          · rintro rfl
            exact ⟨rfl, (check_entries_eq_true_iff _ _).mp hc⟩
          · rintro ⟨rfl, _⟩
            rfl
        · simp only [find_cached_state, hg, Bool.false_eq_true, if_false, if_neg hc,
            readable_mtimes, false_or]
          constructor
          · intro h
            exact absurd h (by simp)
          · rintro ⟨hs, hok⟩
            obtain rfl := (Option.some_inj.mp hs).symm
            exact absurd ((check_entries_eq_true_iff _ _).mpr hok) hc

/-! ## Claim C10 -/

/-- Claim C10: `fix_name` keeps exactly the alphanumeric, `'-'` and `'.'`
characters of its input; in particular every underscore is removed (for any
alphanumeric test that rejects `'_'`, as Rust's does). -/
theorem fix_name_drops_underscore (isAlphanumeric : Char → Bool)
    (name : List Char) (h : isAlphanumeric '_' = false) :
    fix_name isAlphanumeric name =
        name.filter (fun c => isAlphanumeric c || c == '-' || c == '.') ∧
      '_' ∉ fix_name isAlphanumeric name := by
  constructor
  · refine List.filter_congr ?_
    intro c _
    cases isAlphanumeric c <;> cases hc : (c == '-') <;> cases hd : (c == '.') <;>
      simp [hc, hd]
  · intro hmem
    have hp := (List.mem_filter.mp hmem).2
    rw [h] at hp
    exact absurd hp (by decide)

/-- Witness for C10 at a concrete alphanumeric test and name. -/
theorem fix_name_drops_underscore_witness :
    fix_name Char.isAlphanum ['m', 'y', '_', 'p', 'k', 'g'] =
        List.filter (fun c => Char.isAlphanum c || c == '-' || c == '.')
          ['m', 'y', '_', 'p', 'k', 'g'] ∧
      '_' ∉ fix_name Char.isAlphanum ['m', 'y', '_', 'p', 'k', 'g'] :=
  fix_name_drops_underscore Char.isAlphanum ['m', 'y', '_', 'p', 'k', 'g'] (by decide)

/-! ## Claim C4 -/

/-- Counterexample to claim C4: when the engine reports the container absent
at the kill step, `remove` returns an error, not success. -/
theorem remove_errors_on_absent_container :
    DockerContainer.remove (.error "No such container: abc123456789") (.ok ()) ≠
      .ok () := by
  intro h
  cases h

/-- Claim C4 (amended): `remove` performs kill followed by force-remove and
propagates engine errors from either step; it succeeds iff both engine calls
succeed, so a container that is already gone yields an error rather than
success. -/
theorem remove_ok_iff_both_ok (killRes rmRes : Except String Unit) :
    okB (DockerContainer.remove killRes rmRes) = (okB killRes && okB rmRes) := by
  cases killRes <;> cases rmRes <;> rfl

/-! ## Claim C5 -/

/-- Claim C5: `apply` runs `patch -p<strip-level> < <location>` with working
directory `bld-dir` for every patch in order, and always returns success no
matter how many of the patch commands fail. -/
theorem patches_apply_never_fails (bldDir : String)
    (execResult : ExecCmd → Except String Unit) (patches : List (Patch × String)) :
    (Patches.apply bldDir execResult patches).1 = .ok () ∧
      (Patches.apply bldDir execResult patches).2.1 =
        patches.map (fun pl => Patches.patchCmd bldDir pl.1 pl.2) := by
  induction patches with
  | nil => exact ⟨rfl, rfl⟩
  | cons pl rest ih =>
    obtain ⟨p, loc⟩ := pl
    cases hres : execResult (Patches.patchCmd bldDir p loc) <;>
      simp [Patches.apply, hres, ih.1, ih.2]

/-! ## Claim C6 -/

/-- Claim C6: `process_tasks` returns `Ok` iff no `JobResult::Failure` was
observed among the settled results; state-save and cleanup errors never
change the outcome. -/
theorem process_tasks_ok_iff (results : List JobResult) (stateChanged : Bool)
    (saveRes : Except String Unit) (cleanupRes : Except String Nat) :
    process_tasks results stateChanged saveRes cleanupRes = .ok () ↔
      ∀ r ∈ results, isFailure r = false := by
  have hloop : task_failed results = results.any isFailure := by
    simpa using task_failed_loop results false
  by_cases hail : results.any isFailure = true
  · simp only [process_tasks, hloop, hail, if_pos]
    constructor
    · intro h; exact absurd h (by simp)
    · intro h
      obtain ⟨r, hr, hfail⟩ := List.any_eq_true.mp hail
      exact absurd (h r hr) (by simp [hfail])
  · have hall := List.any_eq_false.mp (Bool.eq_false_iff.mpr hail)
    simp only [process_tasks, hloop, Bool.eq_false_iff.mpr hail, Bool.false_eq_true,
      if_false, true_iff]
    intro r hr
    exact Bool.eq_false_iff.mpr (hall r hr)

/-! ## Claim C8 -/

/-- Claim C8, evaluated at the failing input: for recipe `hello` version
`0.1.0` the gzip assembler produces the file name `hello-0.1.0..tar.gz`
(double dot) rather than the documented `hello-0.1.0.tar.gz`. -/
theorem gzip_package_name_double_dot :
    Gzip.package_name "hello" "0.1.0" true = "hello-0.1.0..tar.gz" ∧
      Gzip.build "hello" "0.1.0" "/out" (.ok ()) (.ok ()) =
        .ok "/out/hello-0.1.0..tar.gz" :=
  ⟨rfl, rfl⟩

/-! ## Claim C9 -/

/-- Counterexample to claim C9: the rendered source `httpd.conf` is not an
`http(s)://` URL, yet `fetch_source` dispatches it to `fetch_http_source`,
because the code only tests the prefix `"http"`. -/
theorem fetch_source_http_prefix_counterexample :
    (Remote.fetch_source none (some "httpd.conf") id "/tmp/t" "/tmp/b"
          (.ok ()) (.ok ()) (.ok ()) (.ok ())).2 =
        [.http "httpd.conf" "/tmp/t", .extract "/tmp/b"] ∧
      claimed_http_url "httpd.conf" = false := by
  decide

/-- Claim C9 (amended): `fetch_source` clones via git when `recipe.git` is
set; otherwise, when `recipe.source` is set, the source is rendered through
the template renderer and fetched with `fetch_http_source` into `tmp-dir`
exactly when the rendered string starts with `"http"`, else with
`fetch_fs_source` into `tmp-dir`; with neither field set nothing is fetched
and the step succeeds. -/
theorem fetch_source_selection (git : Option GitSource) (source : Option String)
    (render : String → String) (tmpDir bldDir : String)
    (gitRes httpRes fsRes extractRes : Except String Unit) :
    (∀ repo, git = some repo →
        (Remote.fetch_source git source render tmpDir bldDir
              gitRes httpRes fsRes extractRes).2 =
          [.git repo.url repo.branch bldDir]) ∧
      (git = none → ∀ src, source = some src →
        (starts_with (render src) "http" = true →
            (Remote.fetch_source git source render tmpDir bldDir
                  gitRes httpRes fsRes extractRes).2.head? =
              some (.http (render src) tmpDir)) ∧
          (starts_with (render src) "http" = false →
            (Remote.fetch_source git source render tmpDir bldDir
                  gitRes httpRes fsRes extractRes).2.head? =
              some (.fs (render src) tmpDir))) ∧
      (git = none → source = none →
        Remote.fetch_source git source render tmpDir bldDir
            gitRes httpRes fsRes extractRes =
          (.ok (), [])) := by
  refine ⟨?_, ?_, ?_⟩
  · rintro repo rfl
    cases gitRes <;> rfl
  · rintro rfl src rfl
    constructor
    · intro hpre
      cases hhttp : httpRes <;> cases hext : extractRes <;>
        simp [Remote.fetch_source, hpre, hhttp, hext]
    · intro hpre
      cases hfs : fsRes <;> cases hext : extractRes <;>
        simp [Remote.fetch_source, hpre, hfs, hext]
  · rintro rfl rfl
    rfl

/-- Witness for C9 (amended) at concrete inputs: no git and no source means
no fetch and success. -/
theorem fetch_source_selection_witness :
    Remote.fetch_source none none id "/tmp/t" "/tmp/b"
        (.ok ()) (.ok ()) (.ok ()) (.ok ()) =
      (.ok (), []) :=
  (fetch_source_selection none none id "/tmp/t" "/tmp/b"
      (.ok ()) (.ok ()) (.ok ()) (.ok ())).2.2 rfl rfl

/-! ## Claim C2 -/

/-- Counterexample to claim C2: in a run whose source fetch fails after the
container came up, `run` settles with the fetch error and never invokes
`container.remove()` on the container it owns (generation 0; no dep-cache
stage ran). -/
theorem run_fetch_failure_skips_remove :
    (Build.run leakEnv).1 = .error "curl: (6) could not resolve host" ∧
      Build.Action.spawnContainer 0 ∈ (Build.run leakEnv).2 ∧
      Build.Action.removeContainer 0 ∉ (Build.run leakEnv).2 := by
  decide

/-- Claim C2 (amended): `run` invokes `container.remove()` on the container
the job currently owns exactly when every step after the spawn — the
dep-cache stage when taken, directory creation, source fetch, patch
collection (when the recipe has patches), scripts, excludes and packaging —
succeeds; when any of those steps fails the run settles without removing
that container (session-level pruning is the fallback).  During the
dep-cache stage the replaced container (generation 0) is removed before the
respawn. -/
theorem run_remove_current_iff (env : Build.RunEnv) (bo : BuildOutcome)
    (hb : env.buildRes = .ok bo) :
    (Build.Action.removeContainer (if bo.state.tag = "cached" then 0 else 1) ∈
        (Build.run env).2 ↔
      okB env.outDirRes = true ∧ okB env.spawnRes = true ∧
        (bo.state.tag ≠ "cached" →
          okB env.cacheRes = true ∧ okB env.removeCacheRes = true ∧
            okB env.respawnRes = true) ∧
        okB env.dirsRes = true ∧ okB env.fetchRes = true ∧
        (env.hasPatches = true → okB env.collectRes = true) ∧
        okB env.scriptsRes = true ∧ okB env.excludeRes = true ∧
        okB env.packageRes = true) := by
  by_cases htag : bo.state.tag = "cached"
  · cases hou : env.outDirRes with
    | error e => simp [Build.run, Build.step, hb, htag, hou, okB]
    | ok u =>
      cases hsp : env.spawnRes with
      | error e => simp [Build.run, Build.step, hb, htag, hou, hsp, okB]
      | ok v =>
        have hmem :=
          run_tail_remove_mem env [Build.Action.spawnContainer 0] 0 (by simp)
        simp [Build.run, Build.step, hb, htag, hou, hsp, okB, hmem]
  · cases hou : env.outDirRes with
    | error e => simp [Build.run, Build.step, hb, htag, hou, okB]
    | ok u =>
      cases hsp : env.spawnRes with
      | error e => simp [Build.run, Build.step, hb, htag, hou, hsp, okB]
      | ok v =>
        cases hca : env.cacheRes with
        | error e => simp [Build.run, Build.step, hb, htag, hou, hsp, hca, okB]
        | ok w =>
          cases hrc : env.removeCacheRes with
          | error e =>
            simp [Build.run, Build.step, hb, htag, hou, hsp, hca, hrc, okB]
          | ok _ =>
            cases hrs : env.respawnRes with
            | error e =>
              simp [Build.run, Build.step, hb, htag, hou, hsp, hca, hrc, hrs, okB]
            | ok _ =>
              have hmem :=
                run_tail_remove_mem env
                  [Build.Action.spawnContainer 0, Build.Action.createCache,
                    Build.Action.removeContainer 0, Build.Action.spawnContainer 1]
                  1 (by decide)
              simp [Build.run, Build.step, hb, htag, hou, hsp, hca, hrc, hrs, okB,
                hmem]

/-- Witness for C2 (amended): in a fully successful run (cached-tag image,
generation 0 container) the remove is invoked. -/
theorem run_remove_current_iff_witness :
    Build.Action.removeContainer 0 ∈ (Build.run okEnv).2 :=
  (run_remove_current_iff okEnv (.reused cachedState) rfl).mpr (by decide)

/-! ## Claim C3 -/

/-- Claim C3: the dep-cache second stage (`create_cache`, then removing and
respawning the container) is executed iff the image state the job proceeds
with was not reused with tag `"cached"` and matching deps: whenever
`image::build` reuses a cached entry, the stage runs iff the entry's deps
differ from the resolved set (impossible for a reused entry) or its tag is
`"latest"`; when no entry was reusable (none stored, deps changed, image
gone — the image is then built from scratch with tag `"latest"`) the stage
always runs.  Stated over runs that reach the stage decision (out-dir and
spawn succeeded), with the map invariant that stored tags are `"latest"` or
`"cached"`. -/
theorem create_cache_stage_iff (resolvedDeps : Finset String)
    (cached : Option ImageState) (existsInDocker : Bool) (target : RecipeTarget)
    (fb : FreshBuild) (simple : Bool) (env : Build.RunEnv)
    (hinv : ∀ s, cached = some s → s.tag = "latest" ∨ s.tag = "cached")
    (hb : env.buildRes =
      .ok (Build.image_build resolvedDeps cached existsInDocker target fb simple))
    (ho : okB env.outDirRes = true) (hs : okB env.spawnRes = true) :
    (Build.Action.createCache ∈ (Build.run env).2 ↔
      ∀ s,
        Build.image_build resolvedDeps cached existsInDocker target fb simple =
            .reused s →
          resolvedDeps ≠ s.deps ∨ s.tag = "latest") := by
  rw [run_createCache_iff env _ hb ho hs]
  cases cached with
  | none =>
    simp [Build.image_build, Build.fresh_state, BuildOutcome.state,
      show ("latest" : String) ≠ "cached" from by decide]
  | some s₀ =>
    by_cases hdep : resolvedDeps = s₀.deps
    · by_cases hex : existsInDocker = true
      · have himg :
            Build.image_build resolvedDeps (some s₀) existsInDocker target fb
              simple = .reused s₀ := by
          simp [Build.image_build, hdep, hex]
        rw [himg]
        simp only [BuildOutcome.state]
        constructor
        · intro hne s hrs
          obtain rfl : s₀ = s := by
            injection hrs
          rcases hinv s₀ rfl with hl | hc
          · exact Or.inr hl
          · exact absurd hc hne
        · intro hall
          rcases hall s₀ rfl with hne | hl
          · exact absurd hdep hne
          · rw [hl]
            decide
      · have hex' : existsInDocker = false := by
          cases existsInDocker
          · rfl
          · exact absurd rfl hex
        have himg :
            Build.image_build resolvedDeps (some s₀) existsInDocker target fb
              simple = .fresh (Build.fresh_state target fb simple) := by
          simp [Build.image_build, hdep, hex']
        rw [himg]
        simp [Build.fresh_state, BuildOutcome.state,
          show ("latest" : String) ≠ "cached" from by decide]
    · have himg :
          Build.image_build resolvedDeps (some s₀) existsInDocker target fb
            simple = .fresh (Build.fresh_state target fb simple) := by
        simp [Build.image_build, hdep]
      rw [himg]
      simp [Build.fresh_state, BuildOutcome.state,
        show ("latest" : String) ≠ "cached" from by decide]

/-- Witness for C3: with no cache entry for the target, the image is built
from scratch and the dep-cache stage is executed. -/
theorem create_cache_stage_iff_witness :
    Build.Action.createCache ∈ (Build.run c3Env).2 :=
  (create_cache_stage_iff {"gcc"} none true c3Target c3Fresh false c3Env
        (fun s h => by cases h) rfl (by decide) (by decide)).mpr
    (fun s h => by cases h)

/-! ## Claim C7 -/

/-- Counterexample to claim C7: saving a state whose state file does not yet
exist merely creates an empty file, and the subsequent load fails to
deserialize it instead of returning the state back. -/
theorem legacy_roundtrip_counterexample :
    (Legacy.try_from_path (Legacy.save legacyFreshS []) "pkger.state").2 =
        .error "failed to deserialize image state" ∧
      (Legacy.try_from_path (Legacy.save legacyFreshS []) "pkger.state").2 ≠
        .ok legacyFreshS := by
  decide

/-- Claim C7 (amended): when the state file already exists, saving `S` and
loading from the file yields `S` back; when it does not exist, `save`
creates the file empty without writing `S` (and the load then fails).  The
dirty check lives in the caller: `process_tasks` skips `save` entirely when
`has_changed()` is false, so nothing is written. -/
theorem legacy_roundtrip (S : Legacy.ImagesStateL)
    (fs : List (String × Legacy.FileContent)) (c : Legacy.FileContent)
    (h : Legacy.fsRead fs S.state_file = some c) :
    (Legacy.try_from_path (Legacy.save S fs) S.state_file).2 = .ok S ∧
      Legacy.save_if_changed false S fs = fs := by
  constructor
  · have hsave : Legacy.save S fs = Legacy.fsWrite fs S.state_file (.data S) := by
      unfold Legacy.save
      rw [h]
    rw [hsave]
    unfold Legacy.try_from_path
    rw [legacy_fsRead_fsWrite]
  · rfl

/-- Witness for C7 (amended) over a pre-existing (empty) state file. -/
theorem legacy_roundtrip_witness :
    (Legacy.try_from_path (Legacy.save legacyS [("pkger.state", .empty)])
          "pkger.state").2 =
        .ok legacyS ∧
      Legacy.save_if_changed false legacyS [("pkger.state", .empty)] =
        [("pkger.state", .empty)] :=
  legacy_roundtrip legacyS [("pkger.state", .empty)] .empty rfl

end Pkger
